import Mathlib

/-!
Verification of the TalentScout AI interview engine against its specification.

The definitions below are a shallow embedding of the Python sources:
  src/utils/validators.py        (InputValidator.validate_tech_stack)
  src/utils/rate_limiter.py      (RateLimiter.is_allowed)
  src/components/advanced_chat.py (extract_candidate_info)
  src/core/ai_manager.py         (AdvancedAIManager.generate_dynamic_question_sync)
  src/core/conversation_engine.py (ConversationEngine)

Python strings are modelled as Lean `String`/`List Char`; machine floats used for
timestamps are modelled as rationals (the rate-limiter claims are purely
order-theoretic, so float rounding is irrelevant); dictionaries with a fixed key
set are modelled as structures of `Option` fields.  Three helpers of
`ConversationEngine` are called in src/core/conversation_engine.py but their
bodies are absent from the source tree (the file is cut mid-identifier inside
`_advance_to_next_stage`, and `_extract_name` / `_generate_greeting_message` are
not defined anywhere); those three are modelled from the specification and each
carries a doc comment saying so.
-/

namespace TalentScout

/-- The one-character string holding an apostrophe (used to build the literal
response strings of the source without apostrophes in Lean string literals). -/
def apos : String := String.mk [Char.ofNat 39]

/-- Dropping a prefix by a predicate never lengthens a list. -/
theorem length_dropWhile_le {α : Type} (p : α → Bool) (l : List α) :
    (l.dropWhile p).length ≤ l.length := by
  induction l with
  | nil => simp [List.dropWhile]
  | cons c rest ih =>
    by_cases h : p c
    · rw [List.dropWhile_cons_of_pos h]
      exact Nat.le_succ_of_le ih
    · rw [List.dropWhile_cons_of_neg h]

/-- Python `str.strip()` on a character list: remove leading and trailing
whitespace (modelled with `Char.isWhitespace`). -/
def pyStrip (s : List Char) : List Char :=
  ((s.dropWhile Char.isWhitespace).reverse.dropWhile Char.isWhitespace).reverse

/-- Python `str.lower()` (ASCII-level model). -/
def pyLower (s : List Char) : List Char :=
  s.map Char.toLower

/-- Python `str.isdigit()` (ASCII-level model): non-empty and all digits. -/
def pyIsDigit (s : List Char) : Bool :=
  !s.isEmpty && s.all Char.isDigit

/-- Helper for `pyTitle`: the Boolean records whether the previous character
was alphabetic. -/
def pyTitleGo : Bool → List Char → List Char
  | _, [] => []
  | prevAlpha, c :: rest =>
    if c.isAlpha then
      (if prevAlpha then c.toLower else c.toUpper) :: pyTitleGo true rest
    else
      c :: pyTitleGo false rest

/-- Python `str.title()` (ASCII-level model): the first alphabetic character of
each run of alphabetic characters is uppercased, the rest lowercased. -/
def pyTitle (s : List Char) : List Char :=
  pyTitleGo false s

/-- Python substring membership `sub in s`. -/
def containsSub (sub : List Char) : List Char → Bool
  | [] => sub.isEmpty
  | c :: rest => sub.isPrefixOf (c :: rest) || containsSub sub rest

/-- Membership of a single character in a string, Python `c in s`. -/
def containsChar (c : Char) (s : List Char) : Bool :=
  s.contains c

/-- Python `s.split(sep)` for a one-character separator: split at every
occurrence, keeping empty pieces. -/
def splitOnChar (sep : Char) : List Char → List (List Char)
  | [] => [[]]
  | c :: rest =>
    if c = sep then
      [] :: splitOnChar sep rest
    else
      match splitOnChar sep rest with
      | [] => [[c]]
      | t :: ts => (c :: t) :: ts

/-- Python `str.split()` with no argument: whitespace-separated words, empty
pieces dropped. -/
def pySplitWs (l : List Char) : List (List Char) :=
  match l with
  | [] => []
  | c :: rest =>
    if c.isWhitespace then
      pySplitWs rest
    else
      (c :: rest.takeWhile (fun d => !d.isWhitespace)) ::
        pySplitWs (rest.dropWhile (fun d => !d.isWhitespace))
termination_by l.length
decreasing_by
  · simp only [List.length_cons]
    exact Nat.lt_succ_of_le (Nat.le_refl _)
  · simp only [List.length_cons]
    exact Nat.lt_succ_of_le (length_dropWhile_le _ _)

/-- Separator characters of the regex class `[,;|\n]` used by
`InputValidator.validate_tech_stack` (src/utils/validators.py line 68). -/
def isTechSep (c : Char) : Bool :=
  c = ',' || c = ';' || c = '|' || c = '\n'

/-- Model of `re.split(r"[,;|\n]+", s)`: pieces between maximal separator
runs; a leading or trailing separator run yields an empty edge piece, and the
empty string yields one empty piece.  The first argument is the (reversed)
accumulator for the current piece. -/
def splitSepRuns (cur : List Char) : List Char → List (List Char)
  | [] => [cur.reverse]
  | c :: rest =>
    if isTechSep c then
      cur.reverse :: splitSepRuns [] (rest.dropWhile isTechSep)
    else
      splitSepRuns (c :: cur) rest
termination_by l => l.length
decreasing_by
  · simp only [List.length_cons]
    exact Nat.lt_succ_of_le (length_dropWhile_le _ _)
  · simp only [List.length_cons]
    exact Nat.lt_succ_of_le (Nat.le_refl _)

/-- `InputValidator.validate_tech_stack` (src/utils/validators.py lines 62-77):
falsy input gives `[]`; otherwise split on runs of `, ; | \n`, strip each
piece, keep the pieces that are non-empty and longer than one character as
their title-cased form, and return at most the first 10. -/
def validate_tech_stack (tech_stack : String) : List String :=
  if tech_stack = "" then
    []
  else
    let skills := splitSepRuns [] tech_stack.data
    let cleaned_skills := skills.filterMap (fun sk0 =>
      let sk := pyStrip sk0
      if !sk.isEmpty && 1 < sk.length then
        some (String.mk (pyTitle sk))
      else
        none)
    cleaned_skills.take 10

/-- Claim C9: `InputValidator.validate_tech_stack` returns at most 10 skills,
each a stripped title-cased piece of length at least 2 coming from splitting
the input on commas, semicolons, pipes, or newlines (short pieces dropped),
and empty input yields the empty list. -/
theorem validate_tech_stack_spec (s : String) :
    (validate_tech_stack s).length ≤ 10 ∧
    (∀ x ∈ validate_tech_stack s, ∃ tok ∈ splitSepRuns [] s.data,
        x = String.mk (pyTitle (pyStrip tok)) ∧ 2 ≤ (pyStrip tok).length) ∧
    (s = "" → validate_tech_stack s = []) := by
  refine ⟨?_, ?_, ?_⟩
  · unfold validate_tech_stack
    split
    · simp
    · exact List.length_take_le 10 _
  · intro x hx
    unfold validate_tech_stack at hx
    split at hx
    · simp at hx
    · have hx' := List.mem_of_mem_take hx
      rcases List.mem_filterMap.mp hx' with ⟨tok, htok, hsome⟩
      refine ⟨tok, htok, ?_⟩
      simp only at hsome
      split at hsome
      · rename_i hcond
        rcases Option.some.inj hsome with rfl
        have hlen : 1 < (pyStrip tok).length := by
          have := (Bool.and_eq_true _ _).mp hcond
          exact decide_eq_true_eq.mp this.2
        exact ⟨rfl, hlen⟩
      · exact absurd hsome (by simp)
  · intro h
    subst h
    unfold validate_tech_stack
    simp

/-- Witness for C9: the theorem evaluated at a concrete input. -/
theorem validate_tech_stack_spec_witness :
    validate_tech_stack "" = [] ∧ (validate_tech_stack "python, go").length ≤ 10 :=
  ⟨(validate_tech_stack_spec "").2.2 rfl, (validate_tech_stack_spec "python, go").1⟩

/-! Rate limiter (src/utils/rate_limiter.py).  `self.calls` is a per-user map
of deques; `is_allowed(user_id)` reads and writes only the queue of that user,
so one user's call sequence is modelled by a single queue (oldest timestamp
first).  `time.time()` floats are modelled as rationals. -/

namespace RateLimiter

/-- One `RateLimiter.is_allowed` call for one user (src/utils/rate_limiter.py
lines 27-41): pop timestamps older than the window from the front of the
queue (the while-loop is `dropWhile` since the deque holds oldest first), then
append `now` and return `true` when the pruned queue is below `max_calls`,
else return `false` leaving the pruned queue as is. -/
def is_allowed (max_calls : ℕ) (time_window : ℚ) (q : List ℚ) (now : ℚ) :
    Bool × List ℚ :=
  let user_calls := q.dropWhile (fun u => decide (time_window < now - u))
  if user_calls.length < max_calls then
    (true, user_calls ++ [now])
  else
    (false, user_calls)

/-- The queue of a user after a sequence of `is_allowed` calls at the given
timestamps. -/
def runCalls (max_calls : ℕ) (time_window : ℚ) : List ℚ → List ℚ → List ℚ
  | q, [] => q
  | q, u :: us => runCalls max_calls time_window (is_allowed max_calls time_window q u).2 us

/-- The timestamps of the calls of a sequence that returned `true`. -/
def allowedTimes (max_calls : ℕ) (time_window : ℚ) : List ℚ → List ℚ → List ℚ
  | _, [] => []
  | q, u :: us =>
    (if (is_allowed max_calls time_window q u).1 then [u] else []) ++
      allowedTimes max_calls time_window (is_allowed max_calls time_window q u).2 us

/-- On a sorted list, dropping a downward-closed prefix predicate is the same
as filtering it out everywhere. -/
theorem dropWhile_eq_filter_of_sorted {p : ℚ → Bool} :
    ∀ {l : List ℚ}, l.Sorted (· ≤ ·) →
      (∀ a b : ℚ, a ≤ b → p b = true → p a = true) →
      l.dropWhile p = l.filter (fun x => !p x) := by
  intro l
  induction l with
  | nil => intro _ _; rfl
  | cons c rest ih =>
    intro hs hp
    rcases List.sorted_cons.mp hs with ⟨hle, hrest⟩
    by_cases hc : p c = true
    · rw [List.dropWhile_cons_of_pos hc, List.filter_cons_of_neg (by simp [hc])]
      exact ih hrest hp
    · rw [List.dropWhile_cons_of_neg (by simp [hc]),
        List.filter_cons_of_pos (by simp [hc])]
      have : rest.filter (fun x => !p x) = rest := by
        apply List.filter_eq_self.mpr
        intro x hx
        by_cases hpx : p x = true
        · exact absurd (hp c x (hle x hx) hpx) hc
        · simp [hpx]
      rw [this]

/-- Single-call behaviour of `is_allowed`, given the queue invariant relative
to the previous call time `lo`: the queue holds exactly the allowed past
timestamps within the window of `lo`. -/
theorem is_allowed_step (max_calls : ℕ) (time_window : ℚ) (hw : 0 ≤ time_window)
    (A q : List ℚ) (lo t : ℚ) (hlt : lo ≤ t)
    (hq : q = A.filter (fun u => decide (lo - u ≤ time_window)))
    (hA : A.Sorted (· ≤ ·))
    (hlen : q.length ≤ max_calls) :
    ((is_allowed max_calls time_window q t).2 =
      (A ++ if (is_allowed max_calls time_window q t).1 then [t] else []).filter
        (fun u => decide (t - u ≤ time_window))) ∧
    (is_allowed max_calls time_window q t).2.length ≤ max_calls ∧
    ((is_allowed max_calls time_window q t).1 = true ↔
      (A.filter (fun u => decide (t - u ≤ time_window))).length < max_calls) ∧
    ((is_allowed max_calls time_window q t).1 = false →
      (is_allowed max_calls time_window q t).2 =
        q.dropWhile (fun u => decide (time_window < t - u))) := by
  have hqsorted : q.Sorted (· ≤ ·) := by
    rw [hq]
    exact hA.sublist (List.filter_sublist _)
  have hprune : q.dropWhile (fun u => decide (time_window < t - u)) =
      q.filter (fun u => decide (t - u ≤ time_window)) := by
    have h1 : q.dropWhile (fun u => decide (time_window < t - u)) =
        q.filter (fun u => !(decide (time_window < t - u))) := by
      apply dropWhile_eq_filter_of_sorted hqsorted
      intro a b hab hpb
      rw [decide_eq_true_eq] at hpb ⊢
      calc time_window < t - b := hpb
        _ ≤ t - a := by linarith
    rw [h1]
    apply List.filter_congr
    intro u _
    rw [← decide_not, decide_eq_decide]
    exact not_lt
  have hAfilter : q.filter (fun u => decide (t - u ≤ time_window)) =
      A.filter (fun u => decide (t - u ≤ time_window)) := by
    rw [hq, List.filter_filter]
    apply List.filter_congr
    intro u _
    by_cases h : t - u ≤ time_window
    · have h2 : lo - u ≤ time_window := le_trans (by linarith) h
      simp [h, h2]
    · simp [h]
  have hpr : q.dropWhile (fun u => decide (time_window < t - u)) =
      A.filter (fun u => decide (t - u ≤ time_window)) := hprune.trans hAfilter
  by_cases hb :
      (q.dropWhile (fun u => decide (time_window < t - u))).length < max_calls
  · have hr : is_allowed max_calls time_window q t =
        (true, q.dropWhile (fun u => decide (time_window < t - u)) ++ [t]) := by
      simp only [is_allowed]
      rw [if_pos hb]
    rw [hr]
    refine ⟨?_, ?_, ?_, ?_⟩
    · show q.dropWhile (fun u => decide (time_window < t - u)) ++ [t] =
        (A ++ [t]).filter (fun u => decide (t - u ≤ time_window))
      rw [List.filter_append, hpr]
      have ht : decide (t - t ≤ time_window) = true :=
        decide_eq_true_eq.mpr (by linarith)
      have h0 : decide ((0 : ℚ) ≤ time_window) = true := decide_eq_true_eq.mpr hw
      congr 1
      simp [List.filter, ht, h0]
    · show (q.dropWhile (fun u => decide (time_window < t - u)) ++ [t]).length ≤ max_calls
      rw [List.length_append, List.length_singleton]
      omega
    · refine iff_of_true rfl ?_
      rw [← hpr]
      exact hb
    · intro h
      simp at h
  · have hr : is_allowed max_calls time_window q t =
        (false, q.dropWhile (fun u => decide (time_window < t - u))) := by
      simp only [is_allowed]
      rw [if_neg hb]
    rw [hr]
    refine ⟨?_, ?_, ?_, ?_⟩
    · show q.dropWhile (fun u => decide (time_window < t - u)) =
        (A ++ []).filter (fun u => decide (t - u ≤ time_window))
      rw [List.append_nil]
      exact hpr
    · exact le_trans (length_dropWhile_le _ _) hlen
    · refine iff_of_false (by simp) ?_
      rw [← hpr]
      exact hb
    · intro _
      rfl

/-- Behaviour of the final call after a run of earlier calls, by induction on
the run, carrying the invariant of `is_allowed_step`. -/
theorem is_allowed_run (max_calls : ℕ) (time_window : ℚ) (hw : 0 ≤ time_window) :
    ∀ (pre : List ℚ) (t : ℚ) (A q : List ℚ) (lo : ℚ),
      (pre ++ [t]).Sorted (· ≤ ·) → (∀ x ∈ pre ++ [t], lo ≤ x) →
      q = A.filter (fun u => decide (lo - u ≤ time_window)) →
      A.Sorted (· ≤ ·) → (∀ u ∈ A, u ≤ lo) → q.length ≤ max_calls →
      ((is_allowed max_calls time_window (runCalls max_calls time_window q pre) t).2 =
        ((A ++ allowedTimes max_calls time_window q pre) ++
            if (is_allowed max_calls time_window
                (runCalls max_calls time_window q pre) t).1 then [t] else []).filter
          (fun u => decide (t - u ≤ time_window))) ∧
      (is_allowed max_calls time_window (runCalls max_calls time_window q pre) t).2.length
          ≤ max_calls ∧
      ((is_allowed max_calls time_window (runCalls max_calls time_window q pre) t).1 = true ↔
        ((A ++ allowedTimes max_calls time_window q pre).filter
            (fun u => decide (t - u ≤ time_window))).length < max_calls) ∧
      ((is_allowed max_calls time_window (runCalls max_calls time_window q pre) t).1 = false →
        (is_allowed max_calls time_window (runCalls max_calls time_window q pre) t).2 =
          (runCalls max_calls time_window q pre).dropWhile
            (fun u => decide (time_window < t - u))) := by
  intro pre
  induction pre with
  | nil =>
    intro t A q lo hs hlo hq hA hAle hlen
    have hlt : lo ≤ t := hlo t (by simp)
    simpa [runCalls, allowedTimes] using
      is_allowed_step max_calls time_window hw A q lo t hlt hq hA hlen
  | cons p pre2 ih =>
    intro t A q lo hs hlo hq hA hAle hlen
    have hs' : (p :: (pre2 ++ [t])).Sorted (· ≤ ·) := by simpa using hs
    rcases List.sorted_cons.mp hs' with ⟨hple, hrest⟩
    have hlt : lo ≤ p := hlo p (by simp)
    have hstep := is_allowed_step max_calls time_window hw A q lo p hlt hq hA hlen
    rcases hstep with ⟨hq', hlen', _, _⟩
    have hA' : (A ++ if (is_allowed max_calls time_window q p).1 then [p] else []).Sorted
        (· ≤ ·) := by
      show (A ++ if (is_allowed max_calls time_window q p).1 then [p] else []).Pairwise _
      rw [List.pairwise_append]
      refine ⟨hA, ?_, ?_⟩
      · split <;> simp
      · intro a ha b hb
        split at hb
        · rcases List.mem_singleton.mp hb with rfl
          exact le_trans (hAle a ha) hlt
        · simp at hb
    have hAle' : ∀ u ∈ A ++ if (is_allowed max_calls time_window q p).1 then [p] else [],
        u ≤ p := by
      intro u hu
      rcases List.mem_append.mp hu with hu | hu
      · exact le_trans (hAle u hu) hlt
      · split at hu
        · rcases List.mem_singleton.mp hu with rfl
          exact le_refl u
        · simp at hu
    have hres := ih t (A ++ if (is_allowed max_calls time_window q p).1 then [p] else [])
      (is_allowed max_calls time_window q p).2 p hrest hple hq' hA' hAle' hlen'
    have hrun : runCalls max_calls time_window q (p :: pre2) =
        runCalls max_calls time_window (is_allowed max_calls time_window q p).2 pre2 := by
      simp only [runCalls]
    have hallow : allowedTimes max_calls time_window q (p :: pre2) =
        (if (is_allowed max_calls time_window q p).1 then [p] else []) ++
          allowedTimes max_calls time_window (is_allowed max_calls time_window q p).2 pre2 := by
      simp only [allowedTimes]
    rw [hrun, hallow, ← List.append_assoc]
    exact hres

/-- Claim C10: for any user and any nondecreasing sequence of call times, the
queue after each call holds exactly the timestamps of the previously allowed
calls that lie within the last `time_window` seconds, its length never exceeds
`max_calls`, a call returns `true` (and records its own timestamp) exactly
when fewer than `max_calls` allowed calls fall within the window, and a call
returning `false` records nothing: the queue is only pruned of expired
entries. -/
theorem rate_limiter_spec (max_calls : ℕ) (time_window : ℚ) (hw : 0 ≤ time_window)
    (pre : List ℚ) (t : ℚ) (hs : (pre ++ [t]).Sorted (· ≤ ·)) :
    ((is_allowed max_calls time_window (runCalls max_calls time_window [] pre) t).2 =
      (allowedTimes max_calls time_window [] pre ++
          if (is_allowed max_calls time_window
              (runCalls max_calls time_window [] pre) t).1 then [t] else []).filter
        (fun u => decide (t - u ≤ time_window))) ∧
    (is_allowed max_calls time_window (runCalls max_calls time_window [] pre) t).2.length
        ≤ max_calls ∧
    ((is_allowed max_calls time_window (runCalls max_calls time_window [] pre) t).1 = true ↔
      ((allowedTimes max_calls time_window [] pre).filter
          (fun u => decide (t - u ≤ time_window))).length < max_calls) ∧
    ((is_allowed max_calls time_window (runCalls max_calls time_window [] pre) t).1 = false →
      (is_allowed max_calls time_window (runCalls max_calls time_window [] pre) t).2 =
        (runCalls max_calls time_window [] pre).dropWhile
          (fun u => decide (time_window < t - u))) := by
  rcases hpre : pre ++ [t] with _ | ⟨a, rest⟩
  · exact absurd hpre (by simp)
  · have hs2 : (a :: rest).Sorted (· ≤ ·) := hpre ▸ hs
    rcases List.sorted_cons.mp hs2 with ⟨hale, _⟩
    have hlo : ∀ x ∈ pre ++ [t], a ≤ x := by
      intro x hx
      rw [hpre] at hx
      rcases List.mem_cons.mp hx with hx | hx
      · exact hx ▸ le_refl a
      · exact hale x hx
    have := is_allowed_run max_calls time_window hw pre t [] [] a hs hlo
      (by simp) (by simp) (by simp) (by simp)
    simpa using this

/-- Witness for C10: two calls allowed, third and fourth rejected at
`max_calls = 2` within one window. -/
theorem rate_limiter_spec_witness :
    (is_allowed 2 60 (runCalls 2 60 [] [0, 10, 30]) 50).2.length ≤ 2 :=
  (rate_limiter_spec 2 60 (by norm_num) [0, 10, 30] 50 (by decide)).2.1

end RateLimiter

/-! Profile extraction of the chat component
(src/components/advanced_chat.py, `extract_candidate_info`, lines 530-568).
`st.session_state.candidate_info` is a dictionary with keys drawn from
{name, email, experience, position, tech_stack}; it is modelled as a record
of `Option` fields (`none` = key absent).  In this component `tech_stack`
is stored as the raw string (line 567). -/

structure ChatCandidateInfo where
  name : Option String
  email : Option String
  experience : Option String
  position : Option String
  tech_stack : Option String
deriving DecidableEq, Repr

/-- The experience value stored by `extract_candidate_info`
(src/components/advanced_chat.py lines 551-562) for a stripped input
`user_clean` with lowercase form `user_lower`: digits-only input gets
" years" appended; input containing "year", "exp" or "yr" is stored
verbatim; input containing "fresh", "new" or "graduate" becomes "Fresher";
anything else gets " years" appended (the comment in the source says
"Default: treat as years"). -/
def experienceValue (user_clean : List Char) : String :=
  let user_lower := pyLower user_clean
  if pyIsDigit user_clean then
    String.mk user_clean ++ " years"
  else if containsSub "year".data user_lower || containsSub "exp".data user_lower ||
      containsSub "yr".data user_lower then
    String.mk user_clean
  else if containsSub "fresh".data user_lower || containsSub "new".data user_lower ||
      containsSub "graduate".data user_lower then
    "Fresher"
  else
    String.mk user_clean ++ " years"

/-- `extract_candidate_info` (src/components/advanced_chat.py lines 530-568):
walk the field order name, email, experience, position, tech_stack; the first
missing field is targeted and at most that one field is filled from the
stripped input (email only when the input contains an `@`), then the loop
breaks. -/
def extract_candidate_info (info : ChatCandidateInfo) (user_input : String) :
    ChatCandidateInfo :=
  let user_clean := pyStrip user_input.data
  match info.name with
  | none => { info with name := some (String.mk (pyTitle user_clean)) }
  | some _ =>
    match info.email with
    | none =>
      if containsChar '@' user_clean then
        { info with email := some (String.mk user_clean) }
      else
        info
    | some _ =>
      match info.experience with
      | none => { info with experience := some (experienceValue user_clean) }
      | some _ =>
        match info.position with
        | none => { info with position := some (String.mk (pyTitle user_clean)) }
        | some _ =>
          match info.tech_stack with
          | none => { info with tech_stack := some (String.mk user_clean) }
          | some _ => info

/-- Counterexample to claim C7: the claim says an experience input that is
not numeric-only, contains neither "year" nor "yr", and matches no
fresher keyword is stored verbatim; the code instead appends " years"
(src/components/advanced_chat.py line 561).  Input "one decade" satisfies
none of the earlier rules, yet is stored as "one decade years". -/
theorem experience_default_not_verbatim :
    (extract_candidate_info
        ⟨some "Ada", some "ada@example.com", none, none, none⟩
        "one decade").experience = some "one decade years" ∧
    pyIsDigit (pyStrip "one decade".data) = false ∧
    containsSub "year".data (pyLower (pyStrip "one decade".data)) = false ∧
    containsSub "yr".data (pyLower (pyStrip "one decade".data)) = false ∧
    containsSub "fresh".data (pyLower (pyStrip "one decade".data)) = false ∧
    containsSub "graduate".data (pyLower (pyStrip "one decade".data)) = false ∧
    some "one decade years" ≠ some "one decade" := by
  refine ⟨?_, by decide, by decide, by decide, by decide, by decide, by decide⟩
  decide

/-- Claim C7 amended: for an input targeted at the experience field (name and
email present, experience absent), the stored experience is: the stripped
input with " years" appended when it is digits-only; the stripped input
verbatim when it contains "year", "exp" or "yr"; "Fresher" when it instead
contains "fresh", "new" or "graduate"; and otherwise the stripped input with
" years" appended. -/
theorem extract_experience_spec (info : ChatCandidateInfo) (user_input : String)
    (hname : info.name.isSome) (hemail : info.email.isSome)
    (hexp : info.experience = none) :
    (extract_candidate_info info user_input).experience =
      some (experienceValue (pyStrip user_input.data)) ∧
    (pyIsDigit (pyStrip user_input.data) = true →
      experienceValue (pyStrip user_input.data) =
        String.mk (pyStrip user_input.data) ++ " years") ∧
    (pyIsDigit (pyStrip user_input.data) = false →
      (containsSub "year".data (pyLower (pyStrip user_input.data)) ||
        containsSub "exp".data (pyLower (pyStrip user_input.data)) ||
        containsSub "yr".data (pyLower (pyStrip user_input.data))) = true →
      experienceValue (pyStrip user_input.data) = String.mk (pyStrip user_input.data)) ∧
    (pyIsDigit (pyStrip user_input.data) = false →
      (containsSub "year".data (pyLower (pyStrip user_input.data)) ||
        containsSub "exp".data (pyLower (pyStrip user_input.data)) ||
        containsSub "yr".data (pyLower (pyStrip user_input.data))) = false →
      (containsSub "fresh".data (pyLower (pyStrip user_input.data)) ||
        containsSub "new".data (pyLower (pyStrip user_input.data)) ||
        containsSub "graduate".data (pyLower (pyStrip user_input.data))) = true →
      experienceValue (pyStrip user_input.data) = "Fresher") ∧
    (pyIsDigit (pyStrip user_input.data) = false →
      (containsSub "year".data (pyLower (pyStrip user_input.data)) ||
        containsSub "exp".data (pyLower (pyStrip user_input.data)) ||
        containsSub "yr".data (pyLower (pyStrip user_input.data))) = false →
      (containsSub "fresh".data (pyLower (pyStrip user_input.data)) ||
        containsSub "new".data (pyLower (pyStrip user_input.data)) ||
        containsSub "graduate".data (pyLower (pyStrip user_input.data))) = false →
      experienceValue (pyStrip user_input.data) =
        String.mk (pyStrip user_input.data) ++ " years") := by
  refine ⟨?_, ?_, ?_, ?_, ?_⟩
  · rcases h1 : info.name with _ | n
    · rw [h1] at hname
      simp at hname
    · rcases h2 : info.email with _ | e
      · rw [h2] at hemail
        simp at hemail
      · unfold extract_candidate_info
        rw [h1, h2, hexp]
  · intro h
    simp [experienceValue, h]
  · intro h1 h2
    simp [experienceValue, h1, h2]
  · intro h1 h2 h3
    simp [experienceValue, h1, h2, h3]
  · intro h1 h2 h3
    simp [experienceValue, h1, h2, h3]

/-- Witness for the amended C7: concrete experience inputs in each branch. -/
theorem extract_experience_spec_witness :
    (extract_candidate_info ⟨some "Ada", some "ada@example.com", none, none, none⟩
        "5").experience = some (experienceValue (pyStrip "5".data)) ∧
    experienceValue (pyStrip "5".data) = String.mk (pyStrip "5".data) ++ " years" := by
  have h := extract_experience_spec ⟨some "Ada", some "ada@example.com", none, none, none⟩
    "5" (by decide) (by decide) rfl
  exact ⟨h.1, h.2.1 (by decide)⟩

/-! AI manager (src/core/ai_manager.py).  The Groq chat-completion endpoint is
an external collaborator, modelled as an oracle mapping the role-tagged
message list to either completion text or an error (the exception text). -/

structure ChatMsg where
  role : String
  content : String
deriving DecidableEq, Repr

/-- Behaviour of the external LLM endpoint during one interaction. -/
def LLM : Type := List ChatMsg → Except String String

/-- `AdvancedAIManager._make_sync_api_call` (src/core/ai_manager.py lines
42-53): returns the stripped completion content; any exception is logged and
re-raised. -/
def make_sync_api_call (llm : LLM) (messages : List ChatMsg) : Except String String :=
  match llm messages with
  | Except.ok content => Except.ok (String.mk (pyStrip content.data))
  | Except.error e => Except.error e

/-- The `context` dictionary passed to `generate_dynamic_question_sync`;
keys are read with `.get` and a default, so `none` models an absent key. -/
structure QContext where
  position : Option String
  experience : Option String
  skills : Option (List String)
  stage : Option String
  asked_questions : Option (List String)
deriving DecidableEq, Repr

/-- `context.get("position", "Software Developer")`. -/
def QContext.positionD (c : QContext) : String := c.position.getD "Software Developer"

/-- `context.get("experience", "3-5 years")`. -/
def QContext.experienceD (c : QContext) : String := c.experience.getD "3-5 years"

/-- `context.get("skills", ["Python", "JavaScript"])`. -/
def QContext.skillsD (c : QContext) : List String := c.skills.getD ["Python", "JavaScript"]

/-- `context.get("stage", "technical")`. -/
def QContext.stageD (c : QContext) : String := c.stage.getD "technical"

/-- `context.get("asked_questions", [])`. -/
def QContext.askedD (c : QContext) : List String := c.asked_questions.getD []

/-- The system prompt of `generate_dynamic_question_sync`
(src/core/ai_manager.py lines 66-94).  String interpolation is modelled by
concatenation; the Python `repr` of the list slice `asked_questions[-3:]` is
rendered as a comma-separated join (the exact rendering is irrelevant to the
claims, which quantify over all LLM behaviours). -/
def build_system_prompt (position experience : String) (skills : List String)
    (interview_stage : String) (asked_questions : List String) : String :=
  "You are an expert interviewer conducting a " ++ interview_stage ++
  " interview for a " ++ position ++ " position.\n\nCANDIDATE PROFILE:\n- Position: " ++
  position ++ "\n- Experience: " ++ experience ++ "\n- Skills: " ++
  String.intercalate ", " skills ++ "\n- Questions Already Asked: " ++
  toString asked_questions.length ++
  "\n\nDYNAMIC QUESTION GENERATION RULES:\n" ++
  "1. Create ONE unique, challenging question\n" ++
  "2. Make it highly specific to their role and experience level\n" ++
  "3. Focus on practical, real-world scenarios\n" ++
  "4. Avoid repeating similar questions to: " ++
  (if asked_questions.isEmpty then "None"
   else String.intercalate ", " (asked_questions.drop (asked_questions.length - 3))) ++
  "\n5. Match the " ++ interview_stage ++ " assessment type\n\n" ++
  "QUESTION TYPES BY STAGE:\n" ++
  "- greeting: Warm introduction, tell me about yourself\n" ++
  "- technical: Coding problems, system design, architecture, debugging scenarios\n" ++
  "- behavioral: STAR method situations, teamwork, leadership, conflict resolution\n" ++
  "- problem_solving: Logic puzzles, analytical challenges, trade-off decisions\n" ++
  "- wrap_up: Questions for us, career goals, final thoughts\n\n" ++
  "QUALITY CRITERIA:\n- Specific to " ++ position ++ " with " ++ experience ++
  " experience\n- Tests real competencies they" ++ apos ++ "ll use on the job\n" ++
  "- Allows for follow-up questions and deeper exploration\n" ++
  "- Professional yet engaging tone\n\nGenerate ONE exceptional " ++
  interview_stage ++ " question now."

/-- The user prompt of `generate_dynamic_question_sync` (line 96). -/
def build_user_prompt (position experience : String) (skills : List String)
    (interview_stage : String) : String :=
  "Create a dynamic " ++ interview_stage ++ " interview question for " ++ position ++
  " candidate with " ++ experience ++ " experience in " ++
  String.intercalate ", " skills ++ "."

/-- The message list handed to the LLM client by
`generate_dynamic_question_sync` (lines 100-108). -/
def question_messages (context : QContext) : List ChatMsg :=
  [⟨"system", build_system_prompt context.positionD context.experienceD context.skillsD
      context.stageD context.askedD⟩,
   ⟨"user", build_user_prompt context.positionD context.experienceD context.skillsD
      context.stageD⟩]

/-- One entry of `self.question_history` (lines 110-116; the wall-clock
timestamp is not modelled). -/
structure QuestionRecord where
  question : String
  stage : String
  context : QContext
deriving DecidableEq, Repr

/-- The dictionary returned by `generate_dynamic_question_sync`
(lines 120-126 on success, 139-144 on failure); keys absent in one of the two
shapes are `Option` fields. -/
structure QResult where
  question : String
  type : String
  model_used : Option String
  error : Option String
  success : Bool
  context : Option QContext
deriving DecidableEq, Repr

/-- The model name `self.model` (line 33). -/
def AIModelName : String := "llama-3.3-70b-versatile"

/-- The `fallback_questions` dictionary (lines 131-137): one entry per known
stage name; the technical entry embeds `skills[0] if skills else "technical"`. -/
def fallback_questions (skills : List String) : List (String × String) :=
  [("greeting", "Tell me about yourself and what interests you about this position."),
   ("technical", "Describe a challenging " ++
      (match skills with | [] => "technical" | s :: _ => s) ++
      " problem you solved recently."),
   ("behavioral", "Tell me about a time you had to work with a difficult team member."),
   ("problem_solving", "How would you approach debugging a system that" ++ apos ++
      "s running slowly?"),
   ("wrap_up", "What questions do you have about our team and company culture?")]

/-- The lookup `fallback_questions.get(interview_stage, "Tell me about a
project you're proud of.")` (line 140). -/
def fallback_get (skills : List String) (stage : String) : String :=
  ((fallback_questions skills).lookup stage).getD
    ("Tell me about a project you" ++ apos ++ "re proud of.")

/-- `AdvancedAIManager.generate_dynamic_question_sync`
(src/core/ai_manager.py lines 55-144), modelled with explicit state passing
for `self.question_history`: on success the result carries the stripped
completion and the question is appended to the history; on any failure the
stage-keyed fallback is returned and the history is left unchanged (the
source appends only inside the `try` block). -/
def generate_dynamic_question_sync (llm : LLM) (question_history : List QuestionRecord)
    (context : QContext) : QResult × List QuestionRecord :=
  let interview_stage := context.stageD
  let skills := context.skillsD
  match make_sync_api_call llm (question_messages context) with
  | Except.ok question =>
      ({ question := question, type := interview_stage, model_used := some AIModelName,
         error := none, success := true, context := some context },
       question_history ++ [⟨question, interview_stage, context⟩])
  | Except.error e =>
      ({ question := fallback_get skills interview_stage, type := interview_stage,
         model_used := none, error := some e, success := false, context := none },
       question_history)

/-- The character list underlying a concatenation of strings. -/
theorem string_append_data (a b : String) : (a ++ b).data = a.data ++ b.data := rfl

/-- The fallback question is never the empty string, for any stage key and
any skills list. -/
theorem fallback_get_ne_empty (skills : List String) (stage : String) :
    fallback_get skills stage ≠ "" := by
  have htech : ("Describe a challenging " ++
      (match skills with | [] => "technical" | s :: _ => s) ++
      " problem you solved recently.") ≠ "" := by
    intro h
    have hd := congrArg String.data h
    rw [string_append_data, string_append_data] at hd
    simp at hd
  unfold fallback_get fallback_questions
  simp only [List.lookup]
  repeat' split
  all_goals simp only [Option.getD_some, Option.getD_none]
  all_goals first
    | exact htech
    | decide

/-- Counterexample to claim C3: the claim says the failure-path question text
is fixed by the requested stage alone (one fixed table entry per stage); but
for the stage "technical" the code interpolates the candidate's first skill
into the fallback (src/core/ai_manager.py line 133), so two failing calls
with the same stage can return different texts. -/
theorem fallback_not_stage_fixed :
    (generate_dynamic_question_sync (fun _ => Except.error "timeout") []
        ⟨none, none, some ["Rust"], some "technical", none⟩).1.question ≠
      (generate_dynamic_question_sync (fun _ => Except.error "timeout") []
        ⟨none, none, some ["Python"], some "technical", none⟩).1.question ∧
    (generate_dynamic_question_sync (fun _ => Except.error "timeout") []
        ⟨none, none, some ["Rust"], some "technical", none⟩).1.type = "technical" ∧
    (generate_dynamic_question_sync (fun _ => Except.error "timeout") []
        ⟨none, none, some ["Python"], some "technical", none⟩).1.type = "technical" ∧
    (generate_dynamic_question_sync (fun _ => Except.error "timeout") []
        ⟨none, none, some ["Rust"], some "technical", none⟩).1.success = false := by
  refine ⟨by decide, by decide, by decide, by decide⟩

/-- Claim C3 amended: whenever the LLM client call fails, the generator
returns `success = false`, the question text is the canned fallback
determined by the requested stage together with (for the technical entry)
the candidate's first listed skill — the table has one entry per known stage
plus a default for unknown stages — the text is non-empty, and the recorded
error is the exception text (no error propagates: the function is total). -/
theorem generate_question_fallback_spec (llm : LLM)
    (question_history : List QuestionRecord) (context : QContext) (e : String)
    (hfail : llm (question_messages context) = Except.error e) :
    (generate_dynamic_question_sync llm question_history context).1.success = false ∧
    (generate_dynamic_question_sync llm question_history context).1.question =
      fallback_get context.skillsD context.stageD ∧
    (generate_dynamic_question_sync llm question_history context).1.question ≠ "" ∧
    (generate_dynamic_question_sync llm question_history context).1.error = some e := by
  have hm : make_sync_api_call llm (question_messages context) = Except.error e := by
    unfold make_sync_api_call
    rw [hfail]
  refine ⟨?_, ?_, ?_, ?_⟩
  · simp only [generate_dynamic_question_sync, hm]
  · simp only [generate_dynamic_question_sync, hm]
  · simp only [generate_dynamic_question_sync, hm]
    exact fallback_get_ne_empty _ _
  · simp only [generate_dynamic_question_sync, hm]

/-- Witness for the amended C3: a concretely failing client. -/
theorem generate_question_fallback_spec_witness :
    (generate_dynamic_question_sync (fun _ => Except.error "boom") []
        ⟨none, none, none, some "behavioral", none⟩).1.success = false ∧
    (generate_dynamic_question_sync (fun _ => Except.error "boom") []
        ⟨none, none, none, some "behavioral", none⟩).1.question ≠ "" :=
  ⟨(generate_question_fallback_spec (fun _ => Except.error "boom") []
      ⟨none, none, none, some "behavioral", none⟩ "boom" rfl).1,
   (generate_question_fallback_spec (fun _ => Except.error "boom") []
      ⟨none, none, none, some "behavioral", none⟩ "boom" rfl).2.2.1⟩

/-- Counterexample to claim C6: the claim says the returned question text is
appended to the question history in both outcomes; on a failing LLM call the
code returns a non-empty fallback question but appends nothing
(the `self.question_history.append` at src/core/ai_manager.py lines 110-116
sits inside the `try` block only). -/
theorem fallback_not_recorded :
    (generate_dynamic_question_sync (fun _ => Except.error "timeout") []
        ⟨none, none, none, none, none⟩).2 = [] ∧
    (generate_dynamic_question_sync (fun _ => Except.error "timeout") []
        ⟨none, none, none, none, none⟩).1.question ≠ "" := by
  refine ⟨by decide, by decide⟩

/-- Claim C6 amended: the returned question text is appended to the
generator's question history exactly when the LLM call succeeds; on failure
the fallback question is returned but not recorded. -/
theorem question_history_append_spec (llm : LLM)
    (question_history : List QuestionRecord) (context : QContext) :
    ((generate_dynamic_question_sync llm question_history context).1.success = true →
      (generate_dynamic_question_sync llm question_history context).2 =
        question_history ++
          [⟨(generate_dynamic_question_sync llm question_history context).1.question,
            context.stageD, context⟩]) ∧
    ((generate_dynamic_question_sync llm question_history context).1.success = false →
      (generate_dynamic_question_sync llm question_history context).2 =
        question_history) := by
  cases h : make_sync_api_call llm (question_messages context) with
  | ok q =>
    refine ⟨fun _ => ?_, fun hf => ?_⟩
    · simp only [generate_dynamic_question_sync, h]
    · simp only [generate_dynamic_question_sync, h] at hf
      simp at hf
  | error e =>
    refine ⟨fun ht => ?_, fun _ => ?_⟩
    · simp only [generate_dynamic_question_sync, h] at ht
      simp at ht
    · simp only [generate_dynamic_question_sync, h]

/-- Witness for the amended C6: a succeeding client appends its question, a
failing one leaves the history unchanged. -/
theorem question_history_append_spec_witness :
    (generate_dynamic_question_sync (fun _ => Except.ok "Q1") []
        ⟨none, none, none, none, none⟩).2 =
      [⟨"Q1", "technical", ⟨none, none, none, none, none⟩⟩] ∧
    (generate_dynamic_question_sync (fun _ => Except.error "down") []
        ⟨none, none, none, none, none⟩).2 = [] := by
  constructor
  · have h := (question_history_append_spec (fun _ => Except.ok "Q1") []
      ⟨none, none, none, none, none⟩).1 (by decide)
    rw [h]
    decide
  · exact (question_history_append_spec (fun _ => Except.error "down") []
      ⟨none, none, none, none, none⟩).2 (by decide)

/-! Conversation engine (src/core/conversation_engine.py).  The engine
mutates a `ConversationContext` dataclass in place; it is modelled with
explicit state passing.  `datetime` fields (`created_at`, `last_updated`,
message timestamps) carry no claim-relevant information and are not
modelled; the rendered interview duration in the completion message is
replaced by a fixed placeholder.  Three engine helpers are absent from the
source tree and are modelled from the specification (doc comments below). -/

/-- `InterviewStage` (src/config/enums.py lines 14-22), in source order. -/
inductive InterviewStage
  | GREETING
  | INFO_COLLECTION
  | TECHNICAL_ASSESSMENT
  | BEHAVIORAL_ASSESSMENT
  | PROBLEM_SOLVING
  | WRAP_UP
  | COMPLETED
deriving DecidableEq, Repr

/-- `MessageRole` (src/config/enums.py lines 24-28). -/
inductive MessageRole
  | USER
  | ASSISTANT
  | SYSTEM
deriving DecidableEq, Repr

/-- `ConversationState` (src/core/conversation_engine.py lines 19-25). -/
inductive ConversationState
  | INITIALIZED
  | ACTIVE
  | PAUSED
  | COMPLETED
  | ERROR
deriving DecidableEq, Repr

/-- The `candidate_data` dictionary of the engine: keys drawn from
{name, email, experience, position, tech_stack}; `none` = key absent.
The engine stores `tech_stack` as a list (line 238). -/
structure CandidateData where
  name : Option String
  email : Option String
  experience : Option String
  position : Option String
  tech_stack : Option (List String)
deriving DecidableEq, Repr

/-- The `stage_progress` dictionary: `.get(key, 0)` semantics makes an
absent key equal to 0. -/
structure StageProgress where
  technical_questions : Nat
  behavioral_questions : Nat
deriving DecidableEq, Repr

/-- One entry of `conversation_history` (the ISO timestamp is not
modelled). -/
structure Message where
  role : MessageRole
  content : String
  stage : InterviewStage
  message_id : Nat
deriving DecidableEq, Repr

/-- `ConversationContext` (src/core/conversation_engine.py lines 27-38),
without the two `datetime` fields. -/
structure ConversationContext where
  session_id : String
  current_stage : InterviewStage
  conversation_state : ConversationState
  candidate_data : CandidateData
  conversation_history : List Message
  stage_progress : StageProgress
deriving DecidableEq, Repr

/-- Modelled from the spec: `ConversationEngine._generate_greeting_message`
is called at src/core/conversation_engine.py line 112 but is not defined
anywhere in the source tree.  Spec section 4.4: the session is auto-seeded
with a canned greeting plus a name prompt. -/
def generate_greeting_message : String :=
  "Hello! Welcome to TalentScout AI. I am excited to learn about your background. What should I call you?"

/-- Modelled from the spec: `ConversationEngine._extract_name` is called at
src/core/conversation_engine.py line 201 but is not defined anywhere in the
source tree.  Spec section 4.1: the name is a title-cased copy of the
trimmed input (the optional "my name is X" pattern is omitted, which the
spec allows); unparseable, i.e. empty, input leaves the field unset, which
the caller tests with `if name:`. -/
def extract_name (user_input : String) : Option String :=
  let stripped := pyStrip user_input.data
  if stripped.isEmpty then none else some (String.mk (pyTitle stripped))

/-- `ConversationEngine.initialize_conversation`
(src/core/conversation_engine.py lines 102-125): fresh context in stage
GREETING, history seeded with the assistant greeting carrying
`message_id` 1, state set to ACTIVE. -/
def init_conversation (session_id : String) : ConversationContext :=
  { session_id := session_id
    current_stage := InterviewStage.GREETING
    conversation_state := ConversationState.ACTIVE
    candidate_data := ⟨none, none, none, none, none⟩
    conversation_history :=
      [⟨MessageRole.ASSISTANT, generate_greeting_message, InterviewStage.GREETING, 1⟩]
    stage_progress := ⟨0, 0⟩ }

/-- `ConversationEngine._process_greeting_stage` (lines 197-211). -/
def process_greeting_stage (ctx : ConversationContext) (user_input : String) :
    String × ConversationContext :=
  match extract_name user_input with
  | some name =>
      ("Nice to meet you, **" ++ name ++ "**! 🎯\n\nI" ++ apos ++
        "m your AI interviewer powered by advanced language models. I" ++ apos ++
        "ll be conducting an adaptive interview that adjusts based on your responses and technical background.\n\nCould you please share your **email address** so we can keep in touch?",
       { ctx with candidate_data := { ctx.candidate_data with name := some name } })
  | none =>
      ("I" ++ apos ++ "d love to get to know you better! What should I call you?", ctx)

/-- The tech-stack parse of `_process_info_collection_stage` (line 237):
`[skill.strip().title() for skill in user_input.split(",") if skill.strip()]`. -/
def parse_tech_skills (input : List Char) : List String :=
  (splitOnChar ',' input).filterMap (fun sk =>
    if (pyStrip sk).isEmpty then none else some (String.mk (pyTitle (pyStrip sk))))

/-- `ConversationEngine._process_info_collection_stage` (lines 213-254): fill
the first missing field among email (requires both "@" and "."), experience,
position, tech_stack, replying with the next prompt; once only tech_stack is
missing, parse it and reply with the profile summary plus the first
technical question. -/
def process_info_collection_stage (ctx : ConversationContext) (user_input : String) :
    String × ConversationContext :=
  let cd := ctx.candidate_data
  match cd.email with
  | none =>
    if containsChar '@' user_input.data && containsChar '.' user_input.data then
      ("Perfect! Now, **how many years of professional experience** do you have?",
       { ctx with candidate_data :=
          { cd with email := some (String.mk (pyStrip user_input.data)) } })
    else
      ("Please provide a valid email address (e.g., john@example.com)", ctx)
  | some _ =>
    match cd.experience with
    | none =>
      ("Great! **What type of position** are you interested in? (e.g., Software Engineer, Data Scientist, Product Manager)",
       { ctx with candidate_data :=
          { cd with experience := some (String.mk (pyStrip user_input.data)) } })
    | some _ =>
      match cd.position with
      | none =>
        ("Excellent! Now for the key part - **what programming languages, frameworks, and technologies** are you proficient with?\n\nPlease list your main technical skills separated by commas (e.g., Python, React, AWS, PostgreSQL)",
         { ctx with candidate_data :=
            { cd with position := some (String.mk (pyStrip user_input.data)) } })
      | some _ =>
        let tech_skills := parse_tech_skills user_input.data
        let skill0 := match tech_skills with | [] => "technical" | s :: _ => s
        let skill0b := match tech_skills with | [] => "your preferred technology" | s :: _ => s
        ("Perfect! I now have your complete profile:\n\n**👤 Candidate Profile:**\n- **Name:** " ++
          cd.name.getD "N/A" ++ "\n- **Position:** " ++ cd.position.getD "N/A" ++
          "\n- **Experience:** " ++ cd.experience.getD "N/A" ++ "\n- **Tech Stack:** " ++
          String.intercalate ", " tech_skills ++ "\n\nNow I" ++ apos ++
          "ll use **advanced AI** to generate technical questions specifically tailored to your " ++
          skill0 ++ " background. \n\nLet" ++ apos ++
          "s begin the technical assessment! 🚀\n\n**Technical Question 1:**\n\nDescribe a challenging technical problem you" ++
          apos ++ "ve solved using " ++ skill0b ++
          ". Walk me through your approach, the obstacles you faced, and how you overcame them.",
         { ctx with candidate_data := { cd with tech_stack := some tech_skills } })

/-- `ConversationEngine._generate_technical_question` (lines 336-347). -/
def generate_technical_question (tech_stack : List String) (question_number : Nat) :
    String :=
  let primary_skill := match tech_stack with | [] => "programming" | s :: _ => s
  if question_number = 1 then
    "How would you optimize the performance of a " ++ primary_skill ++
      " application that" ++ apos ++
      "s running slowly in production? What steps would you take to identify and fix bottlenecks?"
  else if question_number = 2 then
    "Describe how you would design a scalable system architecture using " ++ primary_skill ++
      " that needs to handle thousands of concurrent users."
  else if question_number = 3 then
    "What are the key security considerations you" ++ apos ++
      "d implement when building a " ++ primary_skill ++
      " application that handles sensitive user data?"
  else
    "Can you explain the best practices you follow when working with " ++ primary_skill ++ "?"

/-- `ConversationEngine._generate_encouragement_feedback` (lines 349-361):
quality tiers by word count of the response. -/
def generate_encouragement_feedback (response : String) : String :=
  let response_length := (pySplitWs response.data).length
  if 80 < response_length then
    "**Excellent!** I appreciate the comprehensive explanation and the depth of detail you provided."
  else if 40 < response_length then
    "**Great response!** You" ++ apos ++ "ve clearly thought through this problem systematically."
  else if 20 < response_length then
    "**Good insight!** Your experience in this area is evident."
  else
    "**Thank you for sharing that.** Your practical experience is valuable."

/-- `ConversationEngine._process_technical_stage` (lines 256-292): always
increments the technical counter; up to the third answer it poses the next
templated question, afterwards it announces the behavioral assessment — but
never changes `current_stage`. -/
def process_technical_stage (ctx : ConversationContext) (user_input : String) :
    String × ConversationContext :=
  let stage_questions := ctx.stage_progress.technical_questions + 1
  let ctx2 := { ctx with stage_progress :=
    { ctx.stage_progress with technical_questions := stage_questions } }
  let feedback := generate_encouragement_feedback user_input
  if stage_questions ≤ 3 then
    let tech_stack := ctx2.candidate_data.tech_stack.getD ["programming"]
    (feedback ++ "\n\n**Technical Question " ++ toString (stage_questions + 1) ++
      ":**\n\n" ++ generate_technical_question tech_stack stage_questions, ctx2)
  else
    (feedback ++ "\n\n🎉 **Technical Assessment Complete!**\n\nYou" ++ apos ++
      "ve demonstrated solid technical knowledge and problem-solving skills. Now let" ++
      apos ++
      "s explore your soft skills and behavioral competencies.\n\n**Behavioral Question 1:**\n\nTell me about a time when you had to work with a difficult team member or resolve a conflict in your team. How did you handle the situation?\n\nPlease structure your response using the **STAR method**:\n- **Situation:** What was the context?\n- **Task:** What was your responsibility?\n- **Action:** What steps did you take?\n- **Result:** What was the outcome?",
     ctx2)

/-- The `behavioral_questions` list of `_process_behavioral_stage`
(lines 303-307). -/
def behavioral_questions_list : List String :=
  ["Describe a time when you had to learn a new technology or skill quickly for a project. How did you approach the learning process?",
   "Tell me about a project where you had to meet a tight deadline. How did you ensure quality while working under pressure?",
   "Give me an example of when you had to explain a complex technical concept to a non-technical stakeholder. How did you make it understandable?"]

/-- `ConversationEngine._generate_interview_completion` (lines 363-397):
sets the stage to COMPLETED and the conversation state to COMPLETED, then
returns the summary text (the rendered wall-clock duration is replaced by a
fixed placeholder). -/
def generate_interview_completion (ctx : ConversationContext) :
    String × ConversationContext :=
  let name := ctx.candidate_data.name.getD ""
  let technical_q := ctx.stage_progress.technical_questions
  let behavioral_q := ctx.stage_progress.behavioral_questions
  let ctx2 := { ctx with
    current_stage := InterviewStage.COMPLETED
    conversation_state := ConversationState.COMPLETED }
  ("🎯 **Interview Complete!**\n\nThank you for your time today, **" ++ name ++
    "**!\n\n**Interview Summary:**\n- ✅ **Technical Questions:** " ++
    toString technical_q ++ "\n- ✅ **Behavioral Questions:** " ++
    toString behavioral_q ++ "\n- ✅ **Total Duration:** 0 minutes\n- ✅ **Completion Status:** 100%\n\nYou" ++
    apos ++ "ve successfully completed our AI-powered interview featuring:\n- 🤖 Personalized questions based on your " ++
    String.intercalate ", " ((ctx.candidate_data.tech_stack.getD ["technical"]).take 2) ++
    " background\n- 📊 Real-time conversation adaptation\n- 🎯 Comprehensive skill assessment\n\n**Next Steps:**\n1. Review your responses in the analytics dashboard\n2. Our team will evaluate your comprehensive answers\n3. Expect feedback within 2-3 business days\n\nThank you for demonstrating your technical expertise and communication skills. Best of luck! 🚀\n\n**Final Question:** Do you have any questions about our company, team, or the role that I can help answer?",
   ctx2)

/-- `ConversationEngine._process_behavioral_stage` (lines 294-320): always
increments the behavioral counter; up to the second answer it poses the next
canned question, on the third it calls `_generate_interview_completion`
(which jumps the stage straight to COMPLETED). -/
def process_behavioral_stage (ctx : ConversationContext) (user_input : String) :
    String × ConversationContext :=
  let stage_questions := ctx.stage_progress.behavioral_questions + 1
  let ctx2 := { ctx with stage_progress :=
    { ctx.stage_progress with behavioral_questions := stage_questions } }
  let feedback := generate_encouragement_feedback user_input
  if stage_questions ≤ 2 then
    (feedback ++ "\n\n**Behavioral Question " ++ toString (stage_questions + 1) ++
      ":**\n\n" ++
      behavioral_questions_list.getD
        (min (stage_questions - 1) (behavioral_questions_list.length - 1)) "" ++
      "\n\nPlease continue using the **STAR method** in your response.",
     ctx2)
  else
    generate_interview_completion ctx2

/-- `ConversationEngine._process_wrap_up_stage` (lines 322-334): fixed
closing text, no state change. -/
def process_wrap_up_stage (ctx : ConversationContext) (user_input : String) :
    String × ConversationContext :=
  ("Thank you for your thoughtful questions! \n\nOur interview process is now complete. You" ++
    apos ++ "ve successfully demonstrated both technical competency and strong communication skills.\n\n**Next Steps:**\n1. Our team will review your comprehensive responses\n2. We" ++
    apos ++ "ll be in touch within 2-3 business days\n3. If selected, you" ++ apos ++
    "ll be invited for the next round\n\nHave a wonderful day, and thank you for your interest in our company! 🚀",
   ctx)

/-- `ConversationEngine._process_stage_specific_input` (lines 179-195): the
stage dispatch; the final `else` covers PROBLEM_SOLVING and COMPLETED. -/
def process_stage_specific_input (ctx : ConversationContext) (user_input : String) :
    String × ConversationContext :=
  match ctx.current_stage with
  | InterviewStage.GREETING => process_greeting_stage ctx user_input
  | InterviewStage.INFO_COLLECTION => process_info_collection_stage ctx user_input
  | InterviewStage.TECHNICAL_ASSESSMENT => process_technical_stage ctx user_input
  | InterviewStage.BEHAVIORAL_ASSESSMENT => process_behavioral_stage ctx user_input
  | InterviewStage.WRAP_UP => process_wrap_up_stage ctx user_input
  | _ => ("Thank you for your response. Let" ++ apos ++ "s continue our conversation.", ctx)

/-- One entry of `self.stage_config` (lines 48-79). -/
structure StageConfig where
  min_exchanges : Nat
  max_exchanges : Nat
  auto_advance : Bool
  required_data : List String
deriving DecidableEq, Repr

/-- `self.stage_config` (lines 48-79): `none` models a stage that is absent
from the dictionary (`.get(stage, {})` then yields falsy defaults). -/
def stage_config : InterviewStage → Option StageConfig
  | InterviewStage.GREETING => some ⟨1, 3, true, ["name"]⟩
  | InterviewStage.INFO_COLLECTION =>
      some ⟨3, 8, true, ["email", "experience", "position", "tech_stack"]⟩
  | InterviewStage.TECHNICAL_ASSESSMENT => some ⟨3, 10, false, []⟩
  | InterviewStage.BEHAVIORAL_ASSESSMENT => some ⟨2, 6, false, []⟩
  | InterviewStage.WRAP_UP => some ⟨1, 3, true, []⟩
  | _ => none

/-- Membership test `field in context.candidate_data` for the string keys
used in `required_data`. -/
def has_field (cd : CandidateData) : String → Bool
  | "name" => cd.name.isSome
  | "email" => cd.email.isSome
  | "experience" => cd.experience.isSome
  | "position" => cd.position.isSome
  | "tech_stack" => cd.tech_stack.isSome
  | _ => false

/-- `ConversationEngine._should_advance_stage` (lines 399-423): advance only
when the stage auto-advances, the user exchanges recorded in this stage meet
`min_exchanges`, and every `required_data` field is present.  A stage absent
from `stage_config` gives `{}` whose `.get("auto_advance", False)` is
falsy. -/
def should_advance_stage (ctx : ConversationContext) : Bool :=
  match stage_config ctx.current_stage with
  | none => false
  | some cfg =>
    if !cfg.auto_advance then false
    else
      let stage_messages := ctx.conversation_history.filter
        (fun m => m.stage == ctx.current_stage)
      let exchanges := (stage_messages.filter (fun m => m.role == MessageRole.USER)).length
      if exchanges < cfg.min_exchanges then false
      else cfg.required_data.all (has_field ctx.candidate_data)

/-- The `stage_progression` dictionary of `_advance_to_next_stage`
(lines 428-434); `none` models an absent key, for which `.get` falls back to
COMPLETED (line 436). -/
def stage_progression : InterviewStage → Option InterviewStage
  | InterviewStage.GREETING => some InterviewStage.INFO_COLLECTION
  | InterviewStage.INFO_COLLECTION => some InterviewStage.TECHNICAL_ASSESSMENT
  | InterviewStage.TECHNICAL_ASSESSMENT => some InterviewStage.BEHAVIORAL_ASSESSMENT
  | InterviewStage.BEHAVIORAL_ASSESSMENT => some InterviewStage.WRAP_UP
  | InterviewStage.WRAP_UP => some InterviewStage.COMPLETED
  | _ => none

/-- Modelled from the spec: the body of `ConversationEngine._advance_to_next_stage`
(src/core/conversation_engine.py lines 425-437) is cut off in the source tree
mid-identifier — it computes `next_stage` from the progression dictionary and
then reads `context.current_stage = next` with no `return`.  Per spec section
4.2 (the transition table, and "policy never moves a session backward or
skips a stage") the function sets the current stage to the computed successor
and yields the updated context. -/
def advance_to_next_stage (ctx : ConversationContext) : ConversationContext :=
  let next_stage := (stage_progression ctx.current_stage).getD InterviewStage.COMPLETED
  { ctx with current_stage := next_stage }

/-- `ConversationEngine.process_user_input` (lines 127-177).  Empty or
whitespace-only input is rejected with a clarifying reply and no mutation;
otherwise the stripped user message is appended with a dense id, the stage
processor runs, the assistant reply is appended, and the stage advances when
`_should_advance_stage` says so.  The body after the user-message append sits
in `try/except` in the source; the `fault` flag models an exception raised
there — in the source the only statements that can raise precede every
mutation of the context (in particular the call of the missing
`_extract_name`, an `AttributeError` at line 201, fires before any field
write), so a fault is modelled at the start of the stage processor, and the
except path returns the generic apology with the context as it stood after
the user-message append. -/
def process_user_input (fault : Bool) (ctx : ConversationContext) (user_input : String) :
    String × ConversationContext :=
  if (pyStrip user_input.data).isEmpty then
    ("I didn" ++ apos ++ "t catch that. Could you please respond?", ctx)
  else
    let user_message : Message :=
      ⟨MessageRole.USER, String.mk (pyStrip user_input.data), ctx.current_stage,
        ctx.conversation_history.length + 1⟩
    let ctx1 := { ctx with conversation_history := ctx.conversation_history ++ [user_message] }
    if fault then
      ("I apologize, but I encountered an issue. Could you please try again?", ctx1)
    else
      let res := process_stage_specific_input ctx1 user_input
      let ai_message : Message :=
        ⟨MessageRole.ASSISTANT, res.1, res.2.current_stage,
          res.2.conversation_history.length + 1⟩
      let ctx3 := { res.2 with conversation_history :=
        res.2.conversation_history ++ [ai_message] }
      if should_advance_stage ctx3 then (res.1, advance_to_next_stage ctx3)
      else (res.1, ctx3)

/-- The contexts reachable from `initialize_conversation` by
`process_user_input` turns (with arbitrary fault injection). -/
inductive Reachable : ConversationContext → Prop
  | init (session_id : String) : Reachable (init_conversation session_id)
  | step (ctx : ConversationContext) (fault : Bool) (input : String) :
      Reachable ctx → Reachable (process_user_input fault ctx input).2

/-- Position of a stage in the fixed total order of the claims and of spec
section 3 (GREETING < INFO_COLLECTION < TECHNICAL_ASSESSMENT <
BEHAVIORAL_ASSESSMENT < WRAP_UP < COMPLETED).  PROBLEM_SOLVING exists in the
source enum but not in that order; it gets a sentinel position. -/
def stageIdx : InterviewStage → Nat
  | InterviewStage.GREETING => 0
  | InterviewStage.INFO_COLLECTION => 1
  | InterviewStage.TECHNICAL_ASSESSMENT => 2
  | InterviewStage.BEHAVIORAL_ASSESSMENT => 3
  | InterviewStage.WRAP_UP => 4
  | InterviewStage.COMPLETED => 5
  | InterviewStage.PROBLEM_SOLVING => 100

/-- The six-stage enumeration named by the claims. -/
def claim_stage_order : List InterviewStage :=
  [InterviewStage.GREETING, InterviewStage.INFO_COLLECTION,
   InterviewStage.TECHNICAL_ASSESSMENT, InterviewStage.BEHAVIORAL_ASSESSMENT,
   InterviewStage.WRAP_UP, InterviewStage.COMPLETED]

/-- All five profile fields are present. -/
def allFive (cd : CandidateData) : Bool :=
  cd.name.isSome && cd.email.isSome && cd.experience.isSome &&
    cd.position.isSome && cd.tech_stack.isSome

/-- The invariant carried by every reachable context: the stage is one of
the three stages the engine can actually produce, the name is present
outside GREETING, the full profile is present in TECHNICAL_ASSESSMENT, the
history ids are dense from 1, and the head of the history is the seeded
assistant greeting. -/
def EngineInv (ctx : ConversationContext) : Prop :=
  (ctx.current_stage = InterviewStage.GREETING ∨
   ctx.current_stage = InterviewStage.INFO_COLLECTION ∨
   ctx.current_stage = InterviewStage.TECHNICAL_ASSESSMENT) ∧
  (ctx.current_stage ≠ InterviewStage.GREETING →
    ctx.candidate_data.name.isSome = true) ∧
  (ctx.current_stage = InterviewStage.TECHNICAL_ASSESSMENT →
    allFive ctx.candidate_data = true) ∧
  (∀ i (hi : i < ctx.conversation_history.length),
    (ctx.conversation_history.get ⟨i, hi⟩).message_id = i + 1) ∧
  ctx.conversation_history.head? =
    some ⟨MessageRole.ASSISTANT, generate_greeting_message, InterviewStage.GREETING, 1⟩

/-- Appending keeps the head of a non-empty list. -/
theorem head?_append_left {α : Type} (l l2 : List α) (a : α) (h : l.head? = some a) :
    (l ++ l2).head? = some a := by
  cases l with
  | nil => simp at h
  | cons x xs => simpa using h

/-- Appending one message with the next dense id keeps the ids dense. -/
theorem ids_append (l : List Message) (m : Message)
    (hl : ∀ i (hi : i < l.length), (l.get ⟨i, hi⟩).message_id = i + 1)
    (hm : m.message_id = l.length + 1) :
    ∀ i (hi : i < (l ++ [m]).length), ((l ++ [m]).get ⟨i, hi⟩).message_id = i + 1 := by
  intro i hi
  have hi' : i < l.length + 1 := by simpa using hi
  rw [List.get_eq_getElem]
  by_cases hlt : i < l.length
  · rw [List.getElem_append_left hlt]
    have := hl i hlt
    rwa [List.get_eq_getElem] at this
  · have hieq : i = l.length := by omega
    subst hieq
    rw [List.getElem_concat_length]
    exact hm
    rfl

/-- Advancing from GREETING goes to INFO_COLLECTION. -/
theorem advance_from_greeting (c : ConversationContext)
    (h : c.current_stage = InterviewStage.GREETING) :
    (advance_to_next_stage c).current_stage = InterviewStage.INFO_COLLECTION ∧
    (advance_to_next_stage c).candidate_data = c.candidate_data ∧
    (advance_to_next_stage c).conversation_history = c.conversation_history := by
  refine ⟨?_, rfl, rfl⟩
  simp [advance_to_next_stage, stage_progression, h]

/-- Advancing from INFO_COLLECTION goes to TECHNICAL_ASSESSMENT. -/
theorem advance_from_info (c : ConversationContext)
    (h : c.current_stage = InterviewStage.INFO_COLLECTION) :
    (advance_to_next_stage c).current_stage = InterviewStage.TECHNICAL_ASSESSMENT ∧
    (advance_to_next_stage c).candidate_data = c.candidate_data ∧
    (advance_to_next_stage c).conversation_history = c.conversation_history := by
  refine ⟨?_, rfl, rfl⟩
  simp [advance_to_next_stage, stage_progression, h]

/-- The GREETING gate: advancing requires the name to be present. -/
theorem should_advance_greeting_name (c : ConversationContext)
    (h : c.current_stage = InterviewStage.GREETING)
    (hadv : should_advance_stage c = true) :
    c.candidate_data.name.isSome = true := by
  unfold should_advance_stage at hadv
  rw [h] at hadv
  simp only [stage_config] at hadv
  split at hadv
  · simp at hadv
  · split at hadv
    · simp at hadv
    · simpa [has_field] using hadv

/-- The INFO_COLLECTION gate: advancing requires email, experience,
position and tech_stack to be present. -/
theorem should_advance_info_fields (c : ConversationContext)
    (h : c.current_stage = InterviewStage.INFO_COLLECTION)
    (hadv : should_advance_stage c = true) :
    c.candidate_data.email.isSome = true ∧
    c.candidate_data.experience.isSome = true ∧
    c.candidate_data.position.isSome = true ∧
    c.candidate_data.tech_stack.isSome = true := by
  unfold should_advance_stage at hadv
  rw [h] at hadv
  simp only [stage_config] at hadv
  split at hadv
  · simp at hadv
  · split at hadv
    · simp at hadv
    · simpa [has_field] using hadv

/-- TECHNICAL_ASSESSMENT never auto-advances (`auto_advance` is false). -/
theorem should_advance_technical (c : ConversationContext)
    (h : c.current_stage = InterviewStage.TECHNICAL_ASSESSMENT) :
    should_advance_stage c = false := by
  unfold should_advance_stage
  rw [h]
  simp [stage_config]

/-- `_process_greeting_stage` never touches the history or the stage and
only ever adds the name field. -/
theorem greeting_preserves (c : ConversationContext) (input : String) :
    (process_greeting_stage c input).2.conversation_history =
        c.conversation_history ∧
    (process_greeting_stage c input).2.current_stage = c.current_stage ∧
    (c.candidate_data.name.isSome = true →
      (process_greeting_stage c input).2.candidate_data.name.isSome = true) ∧
    (allFive c.candidate_data = true →
      allFive (process_greeting_stage c input).2.candidate_data = true) := by
  unfold process_greeting_stage
  cases hx : extract_name input with
  | none => exact ⟨rfl, rfl, fun hn => hn, fun ha => ha⟩
  | some n =>
    refine ⟨rfl, rfl, fun hn => rfl, fun ha => ?_⟩
    simp only [allFive, Bool.and_eq_true] at ha ⊢
    exact ⟨⟨⟨⟨rfl, ha.1.1.1.2⟩, ha.1.1.2⟩, ha.1.2⟩, ha.2⟩

/-- `_process_info_collection_stage` never touches the history or the stage
and only ever adds profile fields. -/
theorem info_preserves (c : ConversationContext) (input : String) :
    (process_info_collection_stage c input).2.conversation_history =
        c.conversation_history ∧
    (process_info_collection_stage c input).2.current_stage = c.current_stage ∧
    (c.candidate_data.name.isSome = true →
      (process_info_collection_stage c input).2.candidate_data.name.isSome = true) ∧
    (allFive c.candidate_data = true →
      allFive (process_info_collection_stage c input).2.candidate_data = true) := by
  unfold process_info_collection_stage
  dsimp only
  cases h1 : c.candidate_data.email with
  | none =>
    by_cases h2 : (containsChar '@' input.data && containsChar '.' input.data) = true
    · rw [if_pos h2]
      refine ⟨rfl, rfl, fun hn => hn, fun ha => ?_⟩
      simp only [allFive, Bool.and_eq_true] at ha
      rw [h1] at ha
      simp at ha
    · rw [if_neg h2]
      exact ⟨rfl, rfl, fun hn => hn, fun ha => ha⟩
  | some e =>
    cases h2 : c.candidate_data.experience with
    | none =>
      refine ⟨rfl, rfl, fun hn => hn, fun ha => ?_⟩
      simp only [allFive, Bool.and_eq_true] at ha
      rw [h2] at ha
      simp at ha
    | some ex =>
      cases h3 : c.candidate_data.position with
      | none =>
        refine ⟨rfl, rfl, fun hn => hn, fun ha => ?_⟩
        simp only [allFive, Bool.and_eq_true] at ha
        rw [h3] at ha
        simp at ha
      | some p =>
        refine ⟨rfl, rfl, fun hn => hn, fun ha => ?_⟩
        simp only [allFive, Bool.and_eq_true] at ha ⊢
        exact ⟨⟨⟨⟨ha.1.1.1.1, rfl⟩, rfl⟩, rfl⟩, rfl⟩

/-- `_process_technical_stage` never touches the history, the stage or the
profile. -/
theorem technical_preserves (c : ConversationContext) (input : String) :
    (process_technical_stage c input).2.conversation_history =
        c.conversation_history ∧
    (process_technical_stage c input).2.current_stage = c.current_stage ∧
    (c.candidate_data.name.isSome = true →
      (process_technical_stage c input).2.candidate_data.name.isSome = true) ∧
    (allFive c.candidate_data = true →
      allFive (process_technical_stage c input).2.candidate_data = true) := by
  unfold process_technical_stage
  dsimp only
  by_cases hq : c.stage_progress.technical_questions + 1 ≤ 3
  · rw [if_pos hq]
    exact ⟨rfl, rfl, fun hn => hn, fun ha => ha⟩
  · rw [if_neg hq]
    exact ⟨rfl, rfl, fun hn => hn, fun ha => ha⟩

/-- The stage processors of the three engine-reachable stages never touch
the history or the stage, and only ever add profile fields. -/
theorem processor_preserves (c : ConversationContext) (input : String)
    (h : c.current_stage = InterviewStage.GREETING ∨
         c.current_stage = InterviewStage.INFO_COLLECTION ∨
         c.current_stage = InterviewStage.TECHNICAL_ASSESSMENT) :
    (process_stage_specific_input c input).2.conversation_history =
        c.conversation_history ∧
    (process_stage_specific_input c input).2.current_stage = c.current_stage ∧
    (c.candidate_data.name.isSome = true →
      (process_stage_specific_input c input).2.candidate_data.name.isSome = true) ∧
    (allFive c.candidate_data = true →
      allFive (process_stage_specific_input c input).2.candidate_data = true) := by
  rcases h with h | h | h
  · have hd : process_stage_specific_input c input = process_greeting_stage c input := by
      unfold process_stage_specific_input
      rw [h]
    rw [hd]
    exact greeting_preserves c input
  · have hd : process_stage_specific_input c input =
        process_info_collection_stage c input := by
      unfold process_stage_specific_input
      rw [h]
    rw [hd]
    exact info_preserves c input
  · have hd : process_stage_specific_input c input = process_technical_stage c input := by
      unfold process_stage_specific_input
      rw [h]
    rw [hd]
    exact technical_preserves c input

/-- The user message appended by `process_user_input`. -/
def turn_user_message (ctx : ConversationContext) (input : String) : Message :=
  ⟨MessageRole.USER, String.mk (pyStrip input.data), ctx.current_stage,
    ctx.conversation_history.length + 1⟩

/-- The context after the user-message append of `process_user_input`. -/
def turn_ctx1 (ctx : ConversationContext) (input : String) : ConversationContext :=
  { ctx with conversation_history :=
      ctx.conversation_history ++ [turn_user_message ctx input] }

/-- The context after the stage processor and the assistant-reply append of
`process_user_input`, before the stage-advance check. -/
def turn_ctx3 (ctx : ConversationContext) (input : String) : ConversationContext :=
  { (process_stage_specific_input (turn_ctx1 ctx input) input).2 with
    conversation_history :=
      (process_stage_specific_input (turn_ctx1 ctx input) input).2.conversation_history ++
        [⟨MessageRole.ASSISTANT,
          (process_stage_specific_input (turn_ctx1 ctx input) input).1,
          (process_stage_specific_input (turn_ctx1 ctx input) input).2.current_stage,
          (process_stage_specific_input (turn_ctx1 ctx input) input).2.conversation_history.length + 1⟩] }

/-- Unfolding of `process_user_input` for non-blank input without fault. -/
theorem process_user_input_false_eq (ctx : ConversationContext) (input : String)
    (hemp : (pyStrip input.data).isEmpty = false) :
    process_user_input false ctx input =
      (if should_advance_stage (turn_ctx3 ctx input) then
        ((process_stage_specific_input (turn_ctx1 ctx input) input).1,
          advance_to_next_stage (turn_ctx3 ctx input))
      else
        ((process_stage_specific_input (turn_ctx1 ctx input) input).1,
          turn_ctx3 ctx input)) := by
  simp [process_user_input, hemp, turn_ctx3, turn_ctx1, turn_user_message]

/-- Unfolding of `process_user_input` for non-blank input with a fault. -/
theorem process_user_input_fault_eq (ctx : ConversationContext) (input : String)
    (hemp : (pyStrip input.data).isEmpty = false) :
    process_user_input true ctx input =
      ("I apologize, but I encountered an issue. Could you please try again?",
        turn_ctx1 ctx input) := by
  simp [process_user_input, hemp, turn_ctx1, turn_user_message]

/-- The stage of the context after the user-message append. -/
theorem turn_ctx1_stage (ctx : ConversationContext) (input : String) :
    (turn_ctx1 ctx input).current_stage = ctx.current_stage := rfl

/-- The profile of the context after the user-message append. -/
theorem turn_ctx1_cd (ctx : ConversationContext) (input : String) :
    (turn_ctx1 ctx input).candidate_data = ctx.candidate_data := rfl

/-- The history of the context after the user-message append. -/
theorem turn_ctx1_hist (ctx : ConversationContext) (input : String) :
    (turn_ctx1 ctx input).conversation_history =
      ctx.conversation_history ++ [turn_user_message ctx input] := rfl

/-- The stage of the pre-advance context of a turn. -/
theorem turn_ctx3_stage (ctx : ConversationContext) (input : String) :
    (turn_ctx3 ctx input).current_stage =
      (process_stage_specific_input (turn_ctx1 ctx input) input).2.current_stage := rfl

/-- The profile of the pre-advance context of a turn. -/
theorem turn_ctx3_cd (ctx : ConversationContext) (input : String) :
    (turn_ctx3 ctx input).candidate_data =
      (process_stage_specific_input (turn_ctx1 ctx input) input).2.candidate_data := rfl

/-- The history of the pre-advance context of a turn. -/
theorem turn_ctx3_hist (ctx : ConversationContext) (input : String) :
    (turn_ctx3 ctx input).conversation_history =
      (process_stage_specific_input (turn_ctx1 ctx input) input).2.conversation_history ++
        [⟨MessageRole.ASSISTANT,
          (process_stage_specific_input (turn_ctx1 ctx input) input).1,
          (process_stage_specific_input (turn_ctx1 ctx input) input).2.current_stage,
          (process_stage_specific_input
            (turn_ctx1 ctx input) input).2.conversation_history.length + 1⟩] := rfl

/-- Properties of the pre-advance context of a turn, given the invariant. -/
theorem turn_ctx3_facts (ctx : ConversationContext) (input : String)
    (hinv : EngineInv ctx) :
    (turn_ctx3 ctx input).current_stage = ctx.current_stage ∧
    (∀ i (hi : i < (turn_ctx3 ctx input).conversation_history.length),
      ((turn_ctx3 ctx input).conversation_history.get ⟨i, hi⟩).message_id = i + 1) ∧
    (turn_ctx3 ctx input).conversation_history.head? =
      some ⟨MessageRole.ASSISTANT, generate_greeting_message, InterviewStage.GREETING, 1⟩ ∧
    (ctx.candidate_data.name.isSome = true →
      (turn_ctx3 ctx input).candidate_data.name.isSome = true) ∧
    (allFive ctx.candidate_data = true →
      allFive (turn_ctx3 ctx input).candidate_data = true) ∧
    ctx.conversation_history.length ≤ (turn_ctx3 ctx input).conversation_history.length := by
  obtain ⟨hstages, hname, htech, hids, hhead⟩ := hinv
  have hpp := processor_preserves (turn_ctx1 ctx input) input (by
    rw [turn_ctx1_stage]
    exact hstages)
  obtain ⟨hph, hps, hpn, hpa⟩ := hpp
  have hids1 : ∀ i (hi : i < (turn_ctx1 ctx input).conversation_history.length),
      ((turn_ctx1 ctx input).conversation_history.get ⟨i, hi⟩).message_id = i + 1 := by
    rw [turn_ctx1_hist]
    exact ids_append _ _ hids rfl
  refine ⟨?_, ?_, ?_, ?_, ?_, ?_⟩
  · rw [turn_ctx3_stage, hps, turn_ctx1_stage]
  · rw [turn_ctx3_hist, hph]
    exact ids_append _ _ hids1 rfl
  · rw [turn_ctx3_hist, hph, turn_ctx1_hist, List.append_assoc]
    exact head?_append_left _ _ _ hhead
  · intro hn
    rw [turn_ctx3_cd]
    apply hpn
    rw [turn_ctx1_cd]
    exact hn
  · intro ha
    rw [turn_ctx3_cd]
    apply hpa
    rw [turn_ctx1_cd]
    exact ha
  · rw [turn_ctx3_hist, hph, turn_ctx1_hist]
    simp only [List.length_append, List.length_singleton]
    omega

/-- One turn preserves the engine invariant, changes the stage at most to
its immediate successor in the claim order, and never shortens the
history. -/
theorem engine_step (ctx : ConversationContext) (hinv : EngineInv ctx)
    (fault : Bool) (input : String) :
    EngineInv (process_user_input fault ctx input).2 ∧
    ((process_user_input fault ctx input).2.current_stage = ctx.current_stage ∨
      stageIdx (process_user_input fault ctx input).2.current_stage =
        stageIdx ctx.current_stage + 1) ∧
    ctx.conversation_history.length ≤
      (process_user_input fault ctx input).2.conversation_history.length := by
  obtain ⟨hstages, hname, htech, hids, hhead⟩ := hinv
  by_cases hemp : (pyStrip input.data).isEmpty = true
  · have heq : (process_user_input fault ctx input).2 = ctx := by
      simp [process_user_input, hemp]
    rw [heq]
    exact ⟨⟨hstages, hname, htech, hids, hhead⟩, Or.inl rfl, le_refl _⟩
  · have hemp' : (pyStrip input.data).isEmpty = false := by
      simpa using hemp
    have hfacts := turn_ctx3_facts ctx input ⟨hstages, hname, htech, hids, hhead⟩
    obtain ⟨hs3, hids3, hhead3, hn3, ha3, hlen3⟩ := hfacts
    cases fault with
    | true =>
      rw [process_user_input_fault_eq ctx input hemp']
      have hids1 : ∀ i (hi : i < (turn_ctx1 ctx input).conversation_history.length),
          ((turn_ctx1 ctx input).conversation_history.get ⟨i, hi⟩).message_id = i + 1 :=
        ids_append _ _ hids rfl
      refine ⟨⟨hstages, hname, htech, hids1, ?_⟩, Or.inl rfl, ?_⟩
      · exact head?_append_left _ _ _ hhead
      · show ctx.conversation_history.length ≤
          (ctx.conversation_history ++ [turn_user_message ctx input]).length
        simp
    | false =>
      rw [process_user_input_false_eq ctx input hemp']
      by_cases hadv : should_advance_stage (turn_ctx3 ctx input) = true
      · rw [if_pos hadv]
        rcases hstages with hG | hI | hT
        · have hadvres := advance_from_greeting (turn_ctx3 ctx input) (hs3.trans hG)
          obtain ⟨has, hacd, hah⟩ := hadvres
          have hn : (turn_ctx3 ctx input).candidate_data.name.isSome = true :=
            should_advance_greeting_name _ (hs3.trans hG) hadv
          refine ⟨⟨Or.inr (Or.inl has), ?_, ?_, ?_, ?_⟩, ?_, ?_⟩
          · intro _
            rw [hacd]
            exact hn
          · intro hctr
            rw [has] at hctr
            exact absurd hctr (by decide)
          · rw [hah]
            exact hids3
          · rw [hah]
            exact hhead3
          · right
            rw [has, hG]
            rfl
          · rw [hah]
            exact hlen3
        · have hadvres := advance_from_info (turn_ctx3 ctx input) (hs3.trans hI)
          obtain ⟨has, hacd, hah⟩ := hadvres
          have hflds := should_advance_info_fields _ (hs3.trans hI) hadv
          have hn : (turn_ctx3 ctx input).candidate_data.name.isSome = true :=
            hn3 (hname (by rw [hI]; decide))
          refine ⟨⟨Or.inr (Or.inr has), ?_, ?_, ?_, ?_⟩, ?_, ?_⟩
          · intro _
            rw [hacd]
            exact hn
          · intro _
            rw [hacd]
            simp only [allFive, Bool.and_eq_true]
            exact ⟨⟨⟨⟨hn, hflds.1⟩, hflds.2.1⟩, hflds.2.2.1⟩, hflds.2.2.2⟩
          · rw [hah]
            exact hids3
          · rw [hah]
            exact hhead3
          · right
            rw [has, hI]
            rfl
          · rw [hah]
            exact hlen3
        · exact absurd hadv (by rw [should_advance_technical _ (hs3.trans hT)]; decide)
      · rw [if_neg hadv]
        refine ⟨⟨?_, ?_, ?_, hids3, hhead3⟩, Or.inl hs3, hlen3⟩
        · rw [hs3]
          exact hstages
        · intro hne
          rw [hs3] at hne
          exact hn3 (hname hne)
        · intro ht
          rw [hs3] at ht
          exact ha3 (htech ht)

/-- Every reachable context satisfies the engine invariant. -/
theorem reachable_inv (ctx : ConversationContext) (h : Reachable ctx) :
    EngineInv ctx := by
  induction h with
  | init sid =>
    refine ⟨Or.inl rfl, fun hne => absurd rfl hne, fun ht => by simp [init_conversation] at ht, ?_, rfl⟩
    intro i hi
    have h1 : i < 1 := by simpa [init_conversation] using hi
    have h0 : i = 0 := by omega
    subst h0
    rfl
  | step c f inp hr ih => exact (engine_step c ih f inp).1

/-- One interview turn used by the concrete demonstration run. -/
def demo_turn (ctx : ConversationContext) (input : String) : ConversationContext :=
  (process_user_input false ctx input).2

/-- A demonstration turn of a reachable context is reachable. -/
theorem demo_turn_reachable (ctx : ConversationContext) (h : Reachable ctx)
    (input : String) : Reachable (demo_turn ctx input) :=
  Reachable.step ctx false input h

/-- The context after the five scripted turns that complete the profile:
name, email, experience, position, tech stack. -/
def demo_tech_ctx : ConversationContext :=
  demo_turn (demo_turn (demo_turn (demo_turn (demo_turn (init_conversation "s")
    "Alice") "alice@example.com") "5") "Engineer") "Python, SQL"

/-- The demonstration run is reachable. -/
theorem demo_tech_ctx_reachable : Reachable demo_tech_ctx :=
  demo_turn_reachable _ (demo_turn_reachable _ (demo_turn_reachable _
    (demo_turn_reachable _ (demo_turn_reachable _ (Reachable.init "s")
      "Alice") "alice@example.com") "5") "Engineer") "Python, SQL"

/-- Claim C1: in every context reachable from `initialize_conversation` by
`process_user_input` turns whose stage is TECHNICAL_ASSESSMENT or later in
the order GREETING < INFO_COLLECTION < TECHNICAL_ASSESSMENT <
BEHAVIORAL_ASSESSMENT < WRAP_UP < COMPLETED, all five profile fields (name,
email, experience, position, tech_stack) are present. -/
theorem info_gate_reachable (ctx : ConversationContext) (h : Reachable ctx)
    (hstage : 2 ≤ stageIdx ctx.current_stage) :
    allFive ctx.candidate_data = true := by
  obtain ⟨hstages, hname, htech, hids, hhead⟩ := reachable_inv ctx h
  rcases hstages with h1 | h1 | h1
  · rw [h1] at hstage
    simp [stageIdx] at hstage
  · rw [h1] at hstage
    simp [stageIdx] at hstage
  · exact htech h1

/-- Witness for C1: five concrete turns complete the profile and reach
TECHNICAL_ASSESSMENT with every field present. -/
theorem info_gate_reachable_witness :
    2 ≤ stageIdx demo_tech_ctx.current_stage ∧
    allFive demo_tech_ctx.candidate_data = true :=
  ⟨by decide, info_gate_reachable demo_tech_ctx demo_tech_ctx_reachable (by decide)⟩

/-- Claim C2: along every sequence of `process_user_input` turns from an
initialized session, the stage is always a member of the six-stage
enumeration and its position in that order never decreases from one turn to
the next. -/
theorem stage_monotone (ctx : ConversationContext) (h : Reachable ctx)
    (fault : Bool) (input : String) :
    ctx.current_stage ∈ claim_stage_order ∧
    (process_user_input fault ctx input).2.current_stage ∈ claim_stage_order ∧
    stageIdx ctx.current_stage ≤
      stageIdx (process_user_input fault ctx input).2.current_stage := by
  have hinv := reachable_inv ctx h
  have hstep := engine_step ctx hinv fault input
  have hmem : ∀ c : ConversationContext,
      (c.current_stage = InterviewStage.GREETING ∨
       c.current_stage = InterviewStage.INFO_COLLECTION ∨
       c.current_stage = InterviewStage.TECHNICAL_ASSESSMENT) →
      c.current_stage ∈ claim_stage_order := by
    intro c hc
    rcases hc with hc | hc | hc <;> rw [hc] <;> simp [claim_stage_order]
  refine ⟨hmem ctx hinv.1, hmem _ hstep.1.1, ?_⟩
  rcases hstep.2.1 with heq | hsucc
  · rw [heq]
  · omega

/-- Witness for C2: the first concrete turn of the demonstration session. -/
theorem stage_monotone_witness :
    stageIdx (init_conversation "s").current_stage ≤
      stageIdx (process_user_input false (init_conversation "s") "Alice").2.current_stage :=
  (stage_monotone (init_conversation "s") (Reachable.init "s") false "Alice").2.2

/-- Claim C5: no reachable session ever skips a stage — every single-turn
stage change moves to the immediate successor in the claim order; moreover
the reachable stages are exactly GREETING, INFO_COLLECTION and
TECHNICAL_ASSESSMENT, so in particular no reachable session is ever in
BEHAVIORAL_ASSESSMENT (the clause about BEHAVIORAL_ASSESSMENT advancing
only to WRAP_UP holds vacuously: TECHNICAL_ASSESSMENT never auto-advances
and the behavioral completion path is unreachable). -/
theorem stage_no_skip (ctx : ConversationContext) (h : Reachable ctx) :
    (ctx.current_stage = InterviewStage.GREETING ∨
     ctx.current_stage = InterviewStage.INFO_COLLECTION ∨
     ctx.current_stage = InterviewStage.TECHNICAL_ASSESSMENT) ∧
    ∀ (fault : Bool) (input : String),
      (process_user_input fault ctx input).2.current_stage = ctx.current_stage ∨
      stageIdx (process_user_input fault ctx input).2.current_stage =
        stageIdx ctx.current_stage + 1 :=
  ⟨(reachable_inv ctx h).1,
   fun fault input => (engine_step ctx (reachable_inv ctx h) fault input).2.1⟩

/-- Witness for C5: the first turn of the demonstration session performs a
single-step transition. -/
theorem stage_no_skip_witness :
    (process_user_input false (init_conversation "s") "Alice").2.current_stage =
        (init_conversation "s").current_stage ∨
      stageIdx (process_user_input false (init_conversation "s") "Alice").2.current_stage =
        stageIdx (init_conversation "s").current_stage + 1 :=
  (stage_no_skip (init_conversation "s") (Reachable.init "s")).2 false "Alice"

/-- Claim C8: in every reachable session the history is densely numbered —
entry `i` carries `message_id = i + 1` — it starts with the seeded assistant
greeting carrying id 1, and its length never decreases across turns. -/
theorem history_dense_append_only (ctx : ConversationContext) (h : Reachable ctx) :
    (∀ i (hi : i < ctx.conversation_history.length),
      (ctx.conversation_history.get ⟨i, hi⟩).message_id = i + 1) ∧
    ctx.conversation_history.head? =
      some ⟨MessageRole.ASSISTANT, generate_greeting_message, InterviewStage.GREETING, 1⟩ ∧
    ∀ (fault : Bool) (input : String),
      ctx.conversation_history.length ≤
        (process_user_input fault ctx input).2.conversation_history.length := by
  obtain ⟨hstages, hname, htech, hids, hhead⟩ := reachable_inv ctx h
  exact ⟨hids, hhead,
    fun fault input => (engine_step ctx ⟨hstages, hname, htech, hids, hhead⟩ fault input).2.2⟩

/-- Witness for C8: the seeded greeting of a fresh session has id 1. -/
theorem history_dense_append_only_witness :
    ((init_conversation "s").conversation_history.get ⟨0, by decide⟩).message_id = 0 + 1 :=
  (history_dense_append_only (init_conversation "s") (Reachable.init "s")).1 0 (by decide)

/-- Claim C4: for every context and non-blank input, a turn whose internal
processing fails after the user message is recorded returns the generic
apology reply, and the returned context is the original one with exactly the
user message appended — stage, candidate data and stage counters are
untouched.  (The embedded `process_user_input` is a total function, so no
exception ever reaches the caller; the `fault` flag models an exception in
the `try` block, whose only raising statements in the source precede every
context mutation.) -/
theorem process_user_input_error_path (ctx : ConversationContext) (input : String)
    (hne : (pyStrip input.data).isEmpty = false) :
    (process_user_input true ctx input).1 =
      "I apologize, but I encountered an issue. Could you please try again?" ∧
    (process_user_input true ctx input).2.current_stage = ctx.current_stage ∧
    (process_user_input true ctx input).2.candidate_data = ctx.candidate_data ∧
    (process_user_input true ctx input).2.stage_progress = ctx.stage_progress ∧
    (process_user_input true ctx input).2.conversation_state = ctx.conversation_state ∧
    (process_user_input true ctx input).2.conversation_history =
      ctx.conversation_history ++
        [⟨MessageRole.USER, String.mk (pyStrip input.data), ctx.current_stage,
          ctx.conversation_history.length + 1⟩] := by
  rw [process_user_input_fault_eq ctx input hne]
  exact ⟨rfl, rfl, rfl, rfl, rfl, rfl⟩

/-- Witness for C4: a concrete faulting turn on a fresh session. -/
theorem process_user_input_error_path_witness :
    (process_user_input true (init_conversation "s") "hello").1 =
      "I apologize, but I encountered an issue. Could you please try again?" ∧
    (process_user_input true (init_conversation "s") "hello").2.candidate_data =
      (init_conversation "s").candidate_data :=
  ⟨(process_user_input_error_path (init_conversation "s") "hello" (by decide)).1,
   (process_user_input_error_path (init_conversation "s") "hello" (by decide)).2.2.1⟩

end TalentScout
